import Mathlib

/-!
# Verification of the wp-calypso request-dispatch / settings-reconciliation layer

This file gives a shallow embedding of the `Site` model (`set`,
`fetchSettings`, `saveSettings`, `settingsErrorHandler`) and of the
WPCOM HTTP data-layer utilities (`dispatchRequest`, `isHttpIngress`,
`isHttpEgress`, `processHttpRequest`), and proves the specified
properties about them.

JavaScript values are embedded as the inductive `JValue`; a JS object is
a list of fields in insertion order.  `undefined` is `Option.none`.
A `Site` instance's attribute bag is `Bag`: a list of own properties in
insertion order, where an entry `(k, none)` is a property that is
present but holds `undefined` (distinct from the key being absent).

lodash's deep `isEqual` on these values coincides with structural
equality of `JValue`, embedded as `JValue.beq` below.
-/

inductive JValue where
  | jNull
  | jBool (b : Bool)
  | jNum (n : Int)
  | jStr (s : String)
  | jArr (xs : List JValue)
  | jObj (fields : List (String × JValue))
deriving Repr

mutual

/-- Structural (deep) equality of embedded JS values: lodash `isEqual`. -/
def JValue.beq : JValue → JValue → Bool
  | .jNull, .jNull => true
  | .jBool a, .jBool c => a == c
  | .jNum a, .jNum c => a == c
  | .jStr a, .jStr c => a == c
  | .jArr xs, .jArr ys => JValue.beqList xs ys
  | .jObj fs, .jObj gs => JValue.beqFields fs gs
  | _, _ => false

def JValue.beqList : List JValue → List JValue → Bool
  | [], [] => true
  | x :: xs, y :: ys => JValue.beq x y && JValue.beqList xs ys
  | _, _ => false

def JValue.beqFields : List (String × JValue) → List (String × JValue) → Bool
  | [], [] => true
  | (k, v) :: xs, (l, w) :: ys => k == l && JValue.beq v w && JValue.beqFields xs ys
  | _, _ => false

end

mutual

theorem JValue.beq_iff : ∀ a b : JValue, JValue.beq a b = true ↔ a = b
  | .jNull, .jNull => by simp [JValue.beq]
  | .jNull, .jBool _ => by simp [JValue.beq]
  | .jBool _, .jBool _ => by simp [JValue.beq]
  | .jNum _, .jNum _ => by simp [JValue.beq]
  | .jStr _, .jStr _ => by simp [JValue.beq]
  | .jArr xs, .jArr ys => by
      simp only [JValue.beq, JValue.beqList_iff xs ys, JValue.jArr.injEq]
  | .jObj fs, .jObj gs => by
      simp only [JValue.beq, JValue.beqFields_iff fs gs, JValue.jObj.injEq]
  | .jNull, .jNum _ => by simp [JValue.beq]
  | .jNull, .jStr _ => by simp [JValue.beq]
  | .jNull, .jArr _ => by simp [JValue.beq]
  | .jNull, .jObj _ => by simp [JValue.beq]
  | .jBool _, .jNull => by simp [JValue.beq]
  | .jBool _, .jNum _ => by simp [JValue.beq]
  | .jBool _, .jStr _ => by simp [JValue.beq]
  | .jBool _, .jArr _ => by simp [JValue.beq]
  | .jBool _, .jObj _ => by simp [JValue.beq]
  | .jNum _, .jNull => by simp [JValue.beq]
  | .jNum _, .jBool _ => by simp [JValue.beq]
  | .jNum _, .jStr _ => by simp [JValue.beq]
  | .jNum _, .jArr _ => by simp [JValue.beq]
  | .jNum _, .jObj _ => by simp [JValue.beq]
  | .jStr _, .jNull => by simp [JValue.beq]
  | .jStr _, .jBool _ => by simp [JValue.beq]
  | .jStr _, .jNum _ => by simp [JValue.beq]
  | .jStr _, .jArr _ => by simp [JValue.beq]
  | .jStr _, .jObj _ => by simp [JValue.beq]
  | .jArr _, .jNull => by simp [JValue.beq]
  | .jArr _, .jBool _ => by simp [JValue.beq]
  | .jArr _, .jNum _ => by simp [JValue.beq]
  | .jArr _, .jStr _ => by simp [JValue.beq]
  | .jArr _, .jObj _ => by simp [JValue.beq]
  | .jObj _, .jNull => by simp [JValue.beq]
  | .jObj _, .jBool _ => by simp [JValue.beq]
  | .jObj _, .jNum _ => by simp [JValue.beq]
  | .jObj _, .jStr _ => by simp [JValue.beq]
  | .jObj _, .jArr _ => by simp [JValue.beq]

theorem JValue.beqList_iff : ∀ xs ys : List JValue, JValue.beqList xs ys = true ↔ xs = ys
  | [], [] => by simp [JValue.beqList]
  | [], _ :: _ => by simp [JValue.beqList]
  | _ :: _, [] => by simp [JValue.beqList]
  | x :: xs, y :: ys => by
      simp [JValue.beqList, JValue.beq_iff x y, JValue.beqList_iff xs ys]

theorem JValue.beqFields_iff : ∀ xs ys : List (String × JValue),
    JValue.beqFields xs ys = true ↔ xs = ys
  | [], [] => by simp [JValue.beqFields]
  | [], _ :: _ => by simp [JValue.beqFields]
  | _ :: _, [] => by simp [JValue.beqFields]
  | (k, v) :: xs, (l, w) :: ys => by
      simp [JValue.beqFields, JValue.beq_iff v w, JValue.beqFields_iff xs ys]

end

instance : DecidableEq JValue := fun a b => decidable_of_iff _ (JValue.beq_iff a b)

/-- A JS object's own enumerable properties, in insertion order.
An entry `(k, none)` models a property present with value `undefined`;
a key with no entry models an absent property. -/
abbrev Bag := List (String × Option JValue)

/-- Reading `obj[k]`: both an absent key and a present-but-`undefined`
property read as `undefined` (`none`). -/
def readVal : Bag → String → Option JValue
  | [], _ => none
  | e :: rest, k => if e.1 = k then e.2 else readVal rest k

/-- `Object.prototype.hasOwnProperty`: is the key present at all? -/
def hasKey : Bag → String → Bool
  | [], _ => false
  | e :: rest, k => e.1 = k || hasKey rest k

/-- `delete obj[k]` (and lodash `omit`): remove the property. -/
def eraseKey : Bag → String → Bag
  | [], _ => []
  | e :: rest, k => if e.1 = k then eraseKey rest k else e :: eraseKey rest k

/-- `obj[k] = v` for a defined `v`: replace in place if the key exists,
append otherwise (JS property-insertion order). -/
def storeKey : Bag → String → JValue → Bag
  | [], k, v => [(k, some v)]
  | e :: rest, k, v => if e.1 = k then (k, some v) :: rest else e :: storeKey rest k v

/-- `fields[k] = v` on the field list of an object value. -/
def setField : List (String × JValue) → String → JValue → List (String × JValue)
  | [], k, v => [(k, v)]
  | e :: rest, k, v => if e.1 = k then (k, v) :: rest else e :: setField rest k v

/-- Reading a field from an object value's field list. -/
def fieldGet : List (String × JValue) → String → Option JValue
  | [], _ => none
  | e :: rest, k => if e.1 = k then some e.2 else fieldGet rest k

/-- Property access `v[k]` on an arbitrary value: `undefined` unless `v`
is an object carrying the field. -/
def objGet : JValue → String → Option JValue
  | .jObj fields, k => fieldGet fields k
  | _, _ => none

/-- JS truthiness of a possibly-`undefined` value. -/
def jsTruthy : Option JValue → Bool
  | none => false
  | some .jNull => false
  | some (.jBool bo) => bo
  | some (.jNum n) => n != 0
  | some (.jStr s) => s != ""
  | some (.jArr _) => true
  | some (.jObj _) => true

/-- `for (key in v)` enumeration of own enumerable properties.  Objects
enumerate their fields; primitives enumerate nothing.  (Strings would
enumerate index keys in JS; no caller in this codebase reaches that
case.) -/
def forInProps : JValue → List (String × JValue)
  | .jObj fields => fields
  | _ => []

/-- String coercion used by JS `+` concatenation (array serialisation is
approximated; only the string and `undefined` cases are reachable from
real data here). -/
def jsToConcatStr : Option JValue → String
  | none => "undefined"
  | some .jNull => "null"
  | some (.jBool bo) => if bo then "true" else "false"
  | some (.jNum n) => toString n
  | some (.jStr s) => s
  | some (.jArr _) => ""
  | some (.jObj _) => "[object Object]"

/-- `Object.assign(this, fields)`: store each field in order. -/
def assignAll (b : Bag) (fields : List (String × JValue)) : Bag :=
  fields.foldl (fun bb e => storeKey bb e.1 e.2) b

/-!
## The `Site` model

Embedded from the source (`Site.prototype.set`, `settingsErrorHandler`,
`Site.prototype.fetchSettings`, `Site.prototype.saveSettings`).

The `computed-attributes` module required by
`Site.prototype.updateComputedAttributes` is not among the supplied
sources; per the spec, computed attributes are a pure function of the
attribute bag, rederived after every raw mutation.  It is therefore a
parameter `ga : Bag → List (String × JValue)` of every operation, and
theorems assume only what the spec guarantees about it.

Asynchronous remote calls are embedded by passing the eventual server
response (and, for `fetchSettings`, the clock reading taken when the
response callback runs) as explicit arguments; the outcome records the
final attribute bag, the number of `'change'` events emitted, and the
externally visible effects (notices raised, callback invocations,
payload sent).
-/

/-- Result of one `Site.prototype.set` call: the new bag, the returned
`changed` flag, and how many `'change'` events were emitted (the source
emits exactly once when `changed`, never otherwise). -/
structure SetOutcome where
  bag : Bag
  changed : Bool
  emits : Nat
deriving Repr

/-- One iteration of the `for (var prop in attributes)` loop in
`Site.prototype.set`: skip when lodash `isEqual` finds the incoming
value deep-equal to the current one; otherwise delete (for `undefined`)
or assign, and record the change. -/
def setStep (acc : Bag × Bool) (e : String × Option JValue) : Bag × Bool :=
  if e.2 = readVal acc.1 e.1 then acc
  else
    match e.2 with
    | none => (eraseKey acc.1 e.1, true)
    | some v => (storeKey acc.1 e.1 v, true)

/-- `Site.prototype.updateComputedAttributes`:
`Object.assign(this, getAttributes(this))`, with the missing
`computed-attributes` module abstracted as `ga`. -/
def updateComputedAttributes (ga : Bag → List (String × JValue)) (b : Bag) : Bag :=
  assignAll b (ga b)

/-- `Site.prototype.set`. -/
def Site.set (ga : Bag → List (String × JValue)) (b : Bag) (attributes : Bag) : SetOutcome :=
  let r := attributes.foldl setStep (b, false)
  { bag := updateComputedAttributes ga r.1
    changed := r.2
    emits := if r.2 then 1 else 0 }

/-- A notification raised through the `notices` collaborator
(`notices.error( message, { button, href } )`). -/
structure Notice where
  message : String
  button : Option String
  href : Option String
deriving DecidableEq, Repr

/-- `settingsErrorHandler( error, site )`: the switch over
`error.statusCode`, returning the list of notices raised (one for the
four handled codes, none otherwise). -/
def settingsErrorHandler (statusCode : Int) (site : Bag) : List Notice :=
  let adminURL : String :=
    if jsTruthy (readVal site "options") then
      jsToConcatStr (objGet ((readVal site "options").getD .jNull) "admin_url")
    else ""
  if statusCode = 0 then
    [{ message := "There was an error retrieving your site settings. Please check your internet connection."
       button := none, href := none }]
  else if statusCode = 400 then
    [{ message := "There was an error retrieving your site settings."
       button := some "Make sure your Jetpack is up to date"
       href := some (adminURL ++ "plugins.php?plugin_status=upgrade") }]
  else if statusCode = 401 then
    [{ message := "You must be logged in to manage site settings.", button := none, href := none }]
  else if statusCode = 403 then
    [{ message := "You are not authorized to manage settings for this site.", button := none, href := none }]
  else []

/-- The response eventually delivered to `fetchSettings`' callback:
either an error with a status code, or the settings record (a JSON
object, so each field holds a defined value). -/
inductive FetchResponse where
  | failure (statusCode : Int)
  | success (data : List (String × JValue))
deriving Repr

/-- Observable result of a `fetchSettings` call once its callback has
run: final bag, total `'change'` events, and notices raised. -/
structure FetchOutcome where
  bag : Bag
  emits : Nat
  notices : List Notice
deriving Repr

/-- `Site.prototype.fetchSettings`.  `responseTime` is the value
`new Date().getTime()` reads when the success callback runs.  (The
request id `this.ID || siteID` only addresses the remote call and does
not affect local state, so it is not modelled.) -/
def Site.fetchSettings (ga : Bag → List (String × JValue)) (b : Bag)
    (resp : FetchResponse) (responseTime : Int) : FetchOutcome :=
  let r1 := Site.set ga b [("fetchingSettings", some (.jBool true))]
  match resp with
  | .failure statusCode =>
      { bag := r1.bag, emits := r1.emits, notices := settingsErrorHandler statusCode r1.bag }
  | .success data =>
      let data1 := setField (setField data "latestSettings" (.jNum responseTime))
        "fetchingSettings" (.jBool false)
      let r2 := Site.set ga r1.bag (data1.map (fun e => (e.1, some e.2)))
      { bag := r2.bag, emits := r1.emits + r2.emits, notices := [] }

/-- The `whitelistString` pre-processing at the top of
`Site.prototype.saveSettings`: when the field holds a string, split it
on newlines into `jetpack_protect_whitelist` and `omit` the string
field. -/
def prepareSettings (newSettings : Bag) : Bag :=
  match readVal newSettings "whitelistString" with
  | some (.jStr s) =>
      eraseKey (storeKey newSettings "jetpack_protect_whitelist"
        (.jArr ((s.splitOn "\n").map .jStr))) "whitelistString"
  | _ => newSettings

/-- Observable result of a `saveSettings` call once its callback has
run: final bag, `'change'` events, the settings payload sent to the
remote write, and the `(error, data)` pairs the caller's callback
received. -/
structure SaveOutcome where
  bag : Bag
  emits : Nat
  sent : Bag
  callbackCalls : List (Option JValue × Option JValue)
deriving Repr

/-- The in-place `settings[ key ] = savedSettings[ key ]` loop of the
inner `reflectSavedSettings`: the settings object's fields after every
saved key has been written into them, in order. -/
def mutatedSettings (saved s0 : List (String × JValue)) : List (String × JValue) :=
  saved.foldl (fun acc e => setField acc e.1 e.2) s0

/-- The `updatedAttributes` entries that the `reflectSavedSettings` loop
adds beyond `settings`: a saved `blogname` key promotes
`newSettings.blogname` into `name`, and a saved `blogdescription` key
promotes `newSettings.blogdescription` into `description` (`ns` is the
prepared `newSettings`). -/
def reflectExtra (ns : Bag) (saved : List (String × JValue)) : Bag :=
  saved.filterMap (fun e =>
    if e.1 = "blogname" then some ("name", readVal ns "blogname")
    else if e.1 = "blogdescription" then some ("description", readVal ns "blogdescription")
    else none)

/-- `Site.prototype.saveSettings`, including the inner
`reflectSavedSettings`.  The server's eventual response is the pair
`(error, data)`; `none` stands for `undefined`.  The result is `none`
when the JS code would throw: reading `data.updated` with `data`
undefined, or writing into `this.settings` when it is `undefined` or
`null`.  (For the remaining non-object shapes of `this.settings`, JS
silently discards the property writes; the `settings` attribute then
round-trips unchanged through `set`.)

The aliasing in the source is significant: `reflectSavedSettings`
mutates the object `this.settings` *in place* through the local alias
`settings` before calling `this.set`, so the bag already holds the
mutated object (`b1` below) when `set` deep-compares it against the
incoming `settings` attribute. -/
def Site.saveSettings (ga : Bag → List (String × JValue)) (b : Bag)
    (newSettings : Bag) (err : Option JValue) (respData : Option JValue) :
    Option SaveOutcome :=
  let ns := prepareSettings newSettings
  match err with
  | some e => some { bag := b, emits := 0, sent := ns, callbackCalls := [(some e, respData)] }
  | none =>
    match respData with
    | none => none
    | some rd =>
      if jsTruthy (objGet rd "updated") then
        let saved := forInProps ((objGet rd "updated").getD .jNull)
        let extra : Bag := reflectExtra ns saved
        match readVal b "settings" with
        | some (.jObj s0) =>
            let mutated := mutatedSettings saved s0
            let b1 := storeKey b "settings" (.jObj mutated)
            let r := Site.set ga b1 (("settings", some (.jObj mutated)) :: extra)
            some { bag := r.bag, emits := r.emits, sent := ns, callbackCalls := [(none, some rd)] }
        | some .jNull => none
        | none => none
        | some v =>
            let r := Site.set ga b (("settings", some v) :: extra)
            some { bag := r.bag, emits := r.emits, sent := ns, callbackCalls := [(none, some rd)] }
      else
        some { bag := b, emits := 0, sent := ns, callbackCalls := [(none, some rd)] }

/-!
## The WPCOM HTTP data-layer utilities

The implementation module (`utils.js` of the data layer) is not among
the supplied sources — only its test suite is — so these definitions
are modelled from the spec (sections 4.1–4.3), with the test suite as a
cross-check.
-/

/-- Modelled from the spec: the `meta.dataLayer` metadata sub-record of
a message envelope, holding one or more of response `data`, `error` and
`progress`. -/
structure DataLayer where
  data : Option JValue
  error : Option JValue
  progress : Option JValue
deriving DecidableEq, Repr

/-- Modelled from the spec: a message envelope — a `type` discriminator
plus the optional `meta.dataLayer` metadata. -/
structure ActionEnvelope where
  type : String
  dataLayer : Option DataLayer
deriving DecidableEq, Repr

/-- Modelled from the spec: `getData` returns the successful response
data if available, else null. -/
def getData (a : ActionEnvelope) : Option JValue :=
  match a.dataLayer with
  | some dl => dl.data
  | none => none

/-- Modelled from the spec: `getError` returns the failing error data
if available, else null. -/
def getError (a : ActionEnvelope) : Option JValue :=
  match a.dataLayer with
  | some dl => dl.error
  | none => none

/-- Modelled from the spec: `getProgress` returns the progress data if
available, else null. -/
def getProgress (a : ActionEnvelope) : Option JValue :=
  match a.dataLayer with
  | some dl => dl.progress
  | none => none

/-- Modelled from the spec (§4.2): the missing `dispatchRequest` of the
data layer's `utils.js`.  Built from four handlers; when invoked with
`(store, action, next)` it delegates to exactly one of them: `initiator`
when the metadata is absent; otherwise `onFailure` with the error
payload (failure takes precedence over success), else `onProgress` with
the progress payload, else `onSuccess` with the data payload.  The spec
requires that exactly one of the four handlers fires per invocation, so
metadata present but carrying none of the three payloads falls through
to the one handler that takes no payload, `initiator`. -/
def dispatchRequest {Ctx Nxt R : Type}
    (initiator : Ctx → ActionEnvelope → Nxt → R)
    (onSuccess onFailure onProgress : Ctx → ActionEnvelope → Nxt → JValue → R)
    (store : Ctx) (action : ActionEnvelope) (next : Nxt) : R :=
  match action.dataLayer with
  | none => initiator store action next
  | some dl =>
    match dl.error with
    | some e => onFailure store action next e
    | none =>
      match dl.progress with
      | some p => onProgress store action next p
      | none =>
        match dl.data with
        | some d => onSuccess store action next d
        | none => initiator store action next

/-- The `WPCOM_HTTP_REQUEST` action-type constant. -/
def WPCOM_HTTP_REQUEST : String := "WPCOM_HTTP_REQUEST"

/-- Modelled from the spec (§4.1): a message is ingress when its type
tag matches the "start request" constant. -/
def isHttpIngress (a : ActionEnvelope) : Bool :=
  a.type == WPCOM_HTTP_REQUEST

/-- Modelled from the spec (§4.1): a message is egress when its
metadata sub-record contains a `data` or `error` field. -/
def isHttpEgress (a : ActionEnvelope) : Bool :=
  match a.dataLayer with
  | some dl => dl.data.isSome || dl.error.isSome
  | none => false

/-- Modelled from the spec (§4.3): the missing `processHttpRequest` of
the data layer's `utils.js`.  It wraps an ingress handler and an egress
handler into a pipeline stage `(store) => (next) => (action)`: an
ingress message goes to `handleIngress` (with `next` passed on, never
called by the stage itself), an egress message goes to `handleEgress`
likewise, and anything else is forwarded unchanged to `next`. -/
def processHttpRequest {Ctx R : Type}
    (handleIngress handleEgress : Ctx → (ActionEnvelope → R) → ActionEnvelope → R)
    (store : Ctx) (next : ActionEnvelope → R) (action : ActionEnvelope) : R :=
  if isHttpIngress action then handleIngress store next action
  else if isHttpEgress action then handleEgress store next action
  else next action

/-- Instrumentation tag recording which dispatcher handler ran, and
with which extracted payload as fourth argument. -/
inductive Called where
  | initiated
  | succeeded (d : JValue)
  | failed (e : JValue)
  | progressed (p : JValue)
deriving DecidableEq, Repr

/-- Instrumentation event for the pipeline stage: which of the two
handlers ran, or `next`, and on which message. -/
inductive RouterEvent where
  | ingressCall (a : ActionEnvelope)
  | egressCall (a : ActionEnvelope)
  | nextCall (a : ActionEnvelope)
deriving DecidableEq, Repr

/-- The dispatcher instantiated with handlers that merely record
themselves: its output is the exact trace of handler calls. -/
def dispatchTrace (store : Unit) (action : ActionEnvelope) (next : Unit) : List Called :=
  dispatchRequest (fun _ _ _ => [Called.initiated])
    (fun _ _ _ d => [Called.succeeded d])
    (fun _ _ _ e => [Called.failed e])
    (fun _ _ _ p => [Called.progressed p])
    store action next

/-- The pipeline stage instantiated with recording handlers and a
recording `next`: its output is the exact trace of calls. -/
def routerTrace (store : Unit) (action : ActionEnvelope) : List RouterEvent :=
  processHttpRequest (fun _ _ a => [RouterEvent.ingressCall a])
    (fun _ _ a => [RouterEvent.egressCall a])
    store (fun a => [RouterEvent.nextCall a]) action

/-- The trivial instance of the abstract computed-attributes function:
no computed attributes. -/
def gaTriv : Bag → List (String × JValue) := fun _ => []

/-!
## Lemmas about the bag operations
-/

theorem readVal_storeKey_self (b : Bag) (k : String) (v : JValue) :
    readVal (storeKey b k v) k = some v := by
  induction b with
  | nil => simp [storeKey, readVal]
  | cons e rest ih =>
      by_cases h : e.1 = k
      · simp [storeKey, h, readVal]
      · simp [storeKey, h, readVal, ih]

theorem readVal_storeKey_ne (b : Bag) (k : String) (v : JValue) (k' : String)
    (h : k' ≠ k) : readVal (storeKey b k v) k' = readVal b k' := by
  induction b with
  | nil => simp [storeKey, readVal, Ne.symm h]
  | cons e rest ih =>
      by_cases he : e.1 = k
      · simp [storeKey, he, readVal, Ne.symm h]
      · by_cases he' : e.1 = k'
        · simp [storeKey, he, readVal, he', h]
        · simp [storeKey, he, readVal, he', ih]

theorem hasKey_storeKey_ne (b : Bag) (k : String) (v : JValue) (k' : String)
    (h : k' ≠ k) : hasKey (storeKey b k v) k' = hasKey b k' := by
  induction b with
  | nil => simp [storeKey, hasKey, Ne.symm h]
  | cons e rest ih =>
      by_cases he : e.1 = k
      · simp [storeKey, he, hasKey, Ne.symm h]
      · simp [storeKey, he, hasKey, ih]

theorem readVal_eraseKey_self (b : Bag) (k : String) :
    readVal (eraseKey b k) k = none := by
  induction b with
  | nil => simp [eraseKey, readVal]
  | cons e rest ih =>
      by_cases he : e.1 = k
      · simp [eraseKey, he, ih]
      · simp [eraseKey, he, readVal, ih]

theorem hasKey_eraseKey_self (b : Bag) (k : String) :
    hasKey (eraseKey b k) k = false := by
  induction b with
  | nil => simp [eraseKey, hasKey]
  | cons e rest ih =>
      by_cases he : e.1 = k
      · simp [eraseKey, he, ih]
      · simp [eraseKey, he, hasKey, ih]

theorem readVal_eraseKey_ne (b : Bag) (k k' : String) (h : k' ≠ k) :
    readVal (eraseKey b k) k' = readVal b k' := by
  induction b with
  | nil => simp [eraseKey]
  | cons e rest ih =>
      by_cases he : e.1 = k
      · simp [eraseKey, he, readVal, Ne.symm h, ih]
      · simp [eraseKey, he, readVal, ih]

theorem hasKey_eraseKey_ne (b : Bag) (k k' : String) (h : k' ≠ k) :
    hasKey (eraseKey b k) k' = hasKey b k' := by
  induction b with
  | nil => simp [eraseKey]
  | cons e rest ih =>
      by_cases he : e.1 = k
      · simp [eraseKey, he, hasKey, Ne.symm h, ih]
      · simp [eraseKey, he, hasKey, ih]

theorem fieldGet_setField_self (l : List (String × JValue)) (k : String) (v : JValue) :
    fieldGet (setField l k v) k = some v := by
  induction l with
  | nil => simp [setField, fieldGet]
  | cons e rest ih =>
      by_cases he : e.1 = k
      · simp [setField, he, fieldGet]
      · simp [setField, he, fieldGet, ih]

theorem mem_setField_self (l : List (String × JValue)) (k : String) (v : JValue) :
    (k, v) ∈ setField l k v := by
  induction l with
  | nil => simp [setField]
  | cons e rest ih =>
      by_cases he : e.1 = k
      · simp [setField, he]
      · simp only [setField, if_neg he]
        exact List.mem_cons_of_mem _ ih

theorem mem_setField_ne (l : List (String × JValue)) (k : String) (v : JValue)
    (k' : String) (v' : JValue) (hmem : (k, v) ∈ l) (hne : k ≠ k') :
    (k, v) ∈ setField l k' v' := by
  induction l with
  | nil => cases hmem
  | cons e rest ih =>
      rcases List.mem_cons.mp hmem with heq | htail
      · subst heq
        simp only [setField, if_neg (show ¬(k = k') from hne)]
        exact List.mem_cons_self _ _
      · by_cases he : e.1 = k'
        · simp only [setField, if_pos he]
          exact List.mem_cons_of_mem _ htail
        · simp only [setField, if_neg he]
          exact List.mem_cons_of_mem _ (ih htail)

theorem map_fst_setField (l : List (String × JValue)) (k : String) (v : JValue) :
    (setField l k v).map Prod.fst =
      if k ∈ l.map Prod.fst then l.map Prod.fst else l.map Prod.fst ++ [k] := by
  induction l with
  | nil => simp [setField]
  | cons e rest ih =>
      by_cases he : e.1 = k
      · simp [setField, he]
      · simp only [setField, if_neg he, List.map_cons, ih, List.mem_cons]
        by_cases hm : k ∈ rest.map Prod.fst
        · simp [hm, Ne.symm he]
        · simp [hm, Ne.symm he]

theorem nodup_map_fst_setField (l : List (String × JValue)) (k : String) (v : JValue)
    (h : (l.map Prod.fst).Nodup) : ((setField l k v).map Prod.fst).Nodup := by
  rw [map_fst_setField]
  by_cases hm : k ∈ l.map Prod.fst
  · simpa [hm] using h
  · simp only [if_neg hm, List.nodup_append]
    exact ⟨h, List.nodup_singleton _, by
      intro a ha hb
      rw [List.mem_singleton.mp hb] at ha
      exact hm ha⟩

/-!
## Lemmas about the `set` loop
-/

theorem foldl_setStep_noop (attrs : Bag) (b : Bag) (c : Bool)
    (h : ∀ e ∈ attrs, e.2 = readVal b e.1) :
    attrs.foldl setStep (b, c) = (b, c) := by
  induction attrs with
  | nil => rfl
  | cons e rest ih =>
      have he := h e (List.mem_cons_self _ _)
      rw [List.foldl_cons, show setStep (b, c) e = (b, c) from by simp [setStep, he]]
      exact ih fun e' h' => h e' (List.mem_cons_of_mem _ h')

theorem foldl_setStep_readVal_ne (attrs : Bag) (acc : Bag × Bool) (k : String)
    (h : ∀ e ∈ attrs, e.1 ≠ k) :
    readVal (attrs.foldl setStep acc).1 k = readVal acc.1 k := by
  induction attrs generalizing acc with
  | nil => rfl
  | cons e rest ih =>
      have he := h e (List.mem_cons_self _ _)
      rw [List.foldl_cons, ih _ fun e' h' => h e' (List.mem_cons_of_mem _ h')]
      by_cases hc : e.2 = readVal acc.1 e.1
      · simp [setStep, hc]
      · cases hv : e.2 with
        | none =>
            rw [hv] at hc
            simp [setStep, hv, hc, readVal_eraseKey_ne _ _ _ (Ne.symm he)]
        | some v =>
            rw [hv] at hc
            simp [setStep, hv, hc, readVal_storeKey_ne _ _ _ _ (Ne.symm he)]

theorem foldl_setStep_hasKey_ne (attrs : Bag) (acc : Bag × Bool) (k : String)
    (h : ∀ e ∈ attrs, e.1 ≠ k) :
    hasKey (attrs.foldl setStep acc).1 k = hasKey acc.1 k := by
  induction attrs generalizing acc with
  | nil => rfl
  | cons e rest ih =>
      have he := h e (List.mem_cons_self _ _)
      rw [List.foldl_cons, ih _ fun e' h' => h e' (List.mem_cons_of_mem _ h')]
      by_cases hc : e.2 = readVal acc.1 e.1
      · simp [setStep, hc]
      · cases hv : e.2 with
        | none =>
            rw [hv] at hc
            simp [setStep, hv, hc, hasKey_eraseKey_ne _ _ _ (Ne.symm he)]
        | some v =>
            rw [hv] at hc
            simp [setStep, hv, hc, hasKey_storeKey_ne _ _ _ _ (Ne.symm he)]

theorem foldl_setStep_readVal_mem (attrs : Bag) (acc : Bag × Bool) (k : String)
    (v : Option JValue) (hmem : (k, v) ∈ attrs)
    (hnodup : (attrs.map Prod.fst).Nodup) :
    readVal (attrs.foldl setStep acc).1 k = v := by
  induction attrs generalizing acc with
  | nil => cases hmem
  | cons e rest ih =>
      rw [List.map_cons, List.nodup_cons] at hnodup
      rcases List.mem_cons.mp hmem with heq | htail
      · subst heq
        have hk : ∀ e' ∈ rest, e'.1 ≠ k := by
          intro e' he' hcon
          have h1 : e'.1 ∈ List.map Prod.fst rest := List.mem_map_of_mem Prod.fst he'
          rw [hcon] at h1
          exact hnodup.1 h1
        rw [List.foldl_cons, foldl_setStep_readVal_ne rest _ k hk]
        by_cases hc : v = readVal acc.1 k
        · simp [setStep, hc]
        · cases v with
          | none => simp [setStep, hc, readVal_eraseKey_self]
          | some v' => simp [setStep, hc, readVal_storeKey_self]
      · rw [List.foldl_cons]
        exact ih _ htail hnodup.2

/-!
## Claim theorems: the request dispatcher and the ingress/egress router
-/

/-- C1: For every invocation of the dispatcher built by
`dispatchRequest(initiate, onSuccess, onFailure, onProgress)` on a
context, message, and next, exactly one of the four handlers is called
(first conjunct: the instrumented call trace always has length one),
chosen by this priority: metadata absent → `initiate`; else an `error`
field → `onFailure`; else a `progress` field → `onProgress`; else a
`data` field → `onSuccess`, each receiving the extracted payload as
fourth argument. -/
theorem dispatchRequest_exactly_one_handler {Ctx Nxt R : Type}
    (initiator : Ctx → ActionEnvelope → Nxt → R)
    (onSuccess onFailure onProgress : Ctx → ActionEnvelope → Nxt → JValue → R)
    (store : Ctx) (action : ActionEnvelope) (next : Nxt) :
    (dispatchTrace () action ()).length = 1
    ∧ (action.dataLayer = none →
        dispatchRequest initiator onSuccess onFailure onProgress store action next
          = initiator store action next)
    ∧ (∀ dl e, action.dataLayer = some dl → dl.error = some e →
        dispatchRequest initiator onSuccess onFailure onProgress store action next
          = onFailure store action next e)
    ∧ (∀ dl p, action.dataLayer = some dl → dl.error = none → dl.progress = some p →
        dispatchRequest initiator onSuccess onFailure onProgress store action next
          = onProgress store action next p)
    ∧ (∀ dl d, action.dataLayer = some dl → dl.error = none → dl.progress = none →
        dl.data = some d →
        dispatchRequest initiator onSuccess onFailure onProgress store action next
          = onSuccess store action next d) := by
  refine ⟨?_, ?_, ?_, ?_, ?_⟩
  · unfold dispatchTrace dispatchRequest
    rcases action with ⟨ty, _ | ⟨d, e, p⟩⟩
    · rfl
    · cases e <;> cases p <;> cases d <;> rfl
  · intro h
    simp [dispatchRequest, h]
  · intro dl e hdl herr
    simp [dispatchRequest, hdl, herr]
  · intro dl p hdl herr hprog
    simp [dispatchRequest, hdl, herr, hprog]
  · intro dl d hdl herr hprog hd
    simp [dispatchRequest, hdl, herr, hprog, hd]

/-- C1 witness: on the metadata-free action `{ type: 'REFILL' }` the
dispatcher calls `initiate` with `(store, action, next)`, and the
instrumented trace is the single `initiated` event. -/
theorem dispatchRequest_exactly_one_handler_witness :
    (dispatchTrace () ⟨"REFILL", none⟩ ()).length = 1
    ∧ dispatchRequest (fun _ _ _ => [Called.initiated])
        (fun _ _ _ d => [Called.succeeded d]) (fun _ _ _ e => [Called.failed e])
        (fun _ _ _ p => [Called.progressed p]) () ⟨"REFILL", none⟩ ()
        = [Called.initiated] :=
  ⟨(dispatchRequest_exactly_one_handler (fun _ _ _ => [Called.initiated])
      (fun _ _ _ d => [Called.succeeded d]) (fun _ _ _ e => [Called.failed e])
      (fun _ _ _ p => [Called.progressed p]) () ⟨"REFILL", none⟩ ()).1,
   (dispatchRequest_exactly_one_handler (fun _ _ _ => [Called.initiated])
      (fun _ _ _ d => [Called.succeeded d]) (fun _ _ _ e => [Called.failed e])
      (fun _ _ _ p => [Called.progressed p]) () ⟨"REFILL", none⟩ ()).2.1 rfl⟩

/-- C2: For every envelope whose metadata carries both a `data` field
and an `error` field, the dispatcher calls only `onFailure`, passing the
error value as the fourth argument; `onSuccess` is never called on such
an envelope (the instrumented trace is exactly one `failed` event and
contains no `succeeded` event). -/
theorem dispatchRequest_failure_overrides_success {Ctx Nxt R : Type}
    (initiator : Ctx → ActionEnvelope → Nxt → R)
    (onSuccess onFailure onProgress : Ctx → ActionEnvelope → Nxt → JValue → R)
    (store : Ctx) (action : ActionEnvelope) (next : Nxt)
    (dl : DataLayer) (d e : JValue)
    (hdl : action.dataLayer = some dl) (hd : dl.data = some d) (he : dl.error = some e) :
    dispatchRequest initiator onSuccess onFailure onProgress store action next
      = onFailure store action next e
    ∧ dispatchTrace () action () = [Called.failed e] := by
  constructor
  · simp [dispatchRequest, hdl, he]
  · simp [dispatchTrace, dispatchRequest, hdl, he]

/-- C2 witness: the test suite's `both` action, whose metadata carries
`data` and `error`, yields exactly one `failed` call carrying the error
payload. -/
theorem dispatchRequest_failure_overrides_success_witness :
    dispatchTrace () ⟨"REFILL", some ⟨some (.jNum 5), some (.jStr "oh no!"), none⟩⟩ ()
      = [Called.failed (.jStr "oh no!")] :=
  (dispatchRequest_failure_overrides_success (fun _ _ _ => ([] : List Called))
    (fun _ _ _ _ => []) (fun _ _ _ _ => []) (fun _ _ _ _ => []) ()
    ⟨"REFILL", some ⟨some (.jNum 5), some (.jStr "oh no!"), none⟩⟩ ()
    ⟨some (.jNum 5), some (.jStr "oh no!"), none⟩ (.jNum 5) (.jStr "oh no!")
    rfl rfl rfl).2

/-- C3: For every message processed by the pipeline stage built by
`processHttpRequest(handleIngress, handleEgress)`: on an ingress
message only `handleIngress` runs (exactly once, and `next` is not
called by the stage); on an egress (non-ingress) message only
`handleEgress` runs likewise; otherwise `next` is called exactly once
with the message unchanged.  The instrumented traces record the exact
calls. -/
theorem processHttpRequest_routing {Ctx R : Type}
    (handleIngress handleEgress : Ctx → (ActionEnvelope → R) → ActionEnvelope → R)
    (store : Ctx) (next : ActionEnvelope → R) (action : ActionEnvelope) :
    (isHttpIngress action = true →
        processHttpRequest handleIngress handleEgress store next action
          = handleIngress store next action
        ∧ routerTrace () action = [RouterEvent.ingressCall action])
    ∧ (isHttpIngress action = false → isHttpEgress action = true →
        processHttpRequest handleIngress handleEgress store next action
          = handleEgress store next action
        ∧ routerTrace () action = [RouterEvent.egressCall action])
    ∧ (isHttpIngress action = false → isHttpEgress action = false →
        processHttpRequest handleIngress handleEgress store next action
          = next action
        ∧ routerTrace () action = [RouterEvent.nextCall action]) := by
  refine ⟨?_, ?_, ?_⟩
  · intro h
    constructor <;> simp [processHttpRequest, routerTrace, h]
  · intro h1 h2
    constructor <;> simp [processHttpRequest, routerTrace, h1, h2]
  · intro h1 h2
    constructor <;> simp [processHttpRequest, routerTrace, h1, h2]

/-- C3 witness: the test suite's three cases — an unrelated action is
forwarded unchanged to `next` exactly once; the ingress and egress
actions each go to their matching handler and `next` is never called. -/
theorem processHttpRequest_routing_witness :
    routerTrace () ⟨"unrelated", none⟩ = [RouterEvent.nextCall ⟨"unrelated", none⟩]
    ∧ routerTrace () ⟨"WPCOM_HTTP_REQUEST", none⟩
        = [RouterEvent.ingressCall ⟨"WPCOM_HTTP_REQUEST", none⟩]
    ∧ routerTrace () ⟨"requestRooster", some ⟨some (.jStr "Astro Chicken"), none, none⟩⟩
        = [RouterEvent.egressCall ⟨"requestRooster", some ⟨some (.jStr "Astro Chicken"), none, none⟩⟩] :=
  ⟨((processHttpRequest_routing (fun _ _ a => [RouterEvent.ingressCall a])
      (fun _ _ a => [RouterEvent.egressCall a]) ()
      (fun a => [RouterEvent.nextCall a]) ⟨"unrelated", none⟩).2.2 (by decide) (by decide)).2,
   ((processHttpRequest_routing (fun _ _ a => [RouterEvent.ingressCall a])
      (fun _ _ a => [RouterEvent.egressCall a]) ()
      (fun a => [RouterEvent.nextCall a]) ⟨"WPCOM_HTTP_REQUEST", none⟩).1 (by decide)).2,
   ((processHttpRequest_routing (fun _ _ a => [RouterEvent.ingressCall a])
      (fun _ _ a => [RouterEvent.egressCall a]) ()
      (fun a => [RouterEvent.nextCall a])
      ⟨"requestRooster", some ⟨some (.jStr "Astro Chicken"), none, none⟩⟩).2.1
      (by decide) (by decide)).2⟩

/-!
## Claim theorems: the `Site` container
-/

/-- C6: For every container and every attribute bag whose each value is
deeply equal to the container's current value for that key, calling
`set` is a no-op: no attribute is stored or deleted (the bag is
returned unchanged), no change event is emitted, and `set` returns
`false`.  (`hga` is what the spec guarantees of the external
computed-attributes module: rederiving computed attributes never
changes the bag on its own.) -/
theorem set_noop_when_deep_equal (ga : Bag → List (String × JValue))
    (hga : ∀ bb : Bag, updateComputedAttributes ga bb = bb)
    (b attrs : Bag) (h : ∀ e ∈ attrs, e.2 = readVal b e.1) :
    Site.set ga b attrs = { bag := b, changed := false, emits := 0 } := by
  simp [Site.set, foldl_setStep_noop attrs b false h, hga]

/-- C6 witness: `set({a: 1})` on an empty container, then `set({a: 1})`
again: the second call changes nothing and emits no second change
event. -/
theorem set_noop_when_deep_equal_witness :
    Site.set gaTriv (Site.set gaTriv [] [("a", some (.jNum 1))]).bag
        [("a", some (.jNum 1))]
      = { bag := (Site.set gaTriv [] [("a", some (.jNum 1))]).bag,
          changed := false, emits := 0 } :=
  set_noop_when_deep_equal gaTriv (fun _ => rfl) _ _ (by decide)

/-- C7: For every container in which attribute `k` currently holds a
defined value, calling `set` with `k` mapped to `undefined` removes the
key entirely rather than storing `undefined`, and this counts as a
change: a change event is emitted and `set` returns `true`. -/
theorem set_undefined_removes_key (ga : Bag → List (String × JValue))
    (hga : ∀ bb : Bag, updateComputedAttributes ga bb = bb)
    (b : Bag) (k : String) (v : JValue) (h : readVal b k = some v) :
    hasKey (Site.set ga b [(k, none)]).bag k = false
    ∧ (Site.set ga b [(k, none)]).changed = true
    ∧ (Site.set ga b [(k, none)]).emits = 1 := by
  have hne : ¬((none : Option JValue) = readVal b k) := by rw [h]; simp
  have hstep : setStep (b, false) (k, none) = (eraseKey b k, true) := by
    simp [setStep, hne]
  refine ⟨?_, ?_, ?_⟩ <;>
    simp [Site.set, hstep, hga, hasKey_eraseKey_self]

/-- C7 witness: with `a` holding `1`, `set({a: undefined})` deletes the
key, reports a change and emits one change event. -/
theorem set_undefined_removes_key_witness :
    hasKey (Site.set gaTriv [("a", some (.jNum 1))] [("a", none)]).bag "a" = false
    ∧ (Site.set gaTriv [("a", some (.jNum 1))] [("a", none)]).changed = true
    ∧ (Site.set gaTriv [("a", some (.jNum 1))] [("a", none)]).emits = 1 :=
  set_undefined_removes_key gaTriv (fun _ => rfl) _ "a" (.jNum 1) (by decide)

/-- Inversion helper: whenever a `saveSettings` call completes (does not
throw), the payload it sent to the remote write is the prepared
settings, and the caller's callback was invoked exactly once, with the
raw `(error, data)` pair of the response. -/
theorem saveSettings_some_inv (ga : Bag → List (String × JValue))
    (b newSettings : Bag) (err rd : Option JValue) (o : SaveOutcome)
    (ho : Site.saveSettings ga b newSettings err rd = some o) :
    o.sent = prepareSettings newSettings ∧ o.callbackCalls = [(err, rd)] := by
  unfold Site.saveSettings at ho
  split at ho
  · injection ho with h
    subst h
    exact ⟨rfl, rfl⟩
  · split at ho
    · exact Option.noConfusion ho
    · split at ho
      · split at ho <;>
          first
          | exact Option.noConfusion ho
          | · injection ho with h
              subst h
              exact ⟨rfl, rfl⟩
      · injection ho with h
        subst h
        exact ⟨rfl, rfl⟩

/-- C9: For every `saveSettings` call whose `newSettings` contains a
(string-valued) `whitelistString` field, the settings sent to the remote
write carry a `jetpack_protect_whitelist` field equal to
`whitelistString` split on newline characters, and the
`whitelistString` field itself is removed before sending. -/
theorem saveSettings_whitelist_split (ga : Bag → List (String × JValue))
    (b newSettings : Bag) (s : String) (err rd : Option JValue)
    (h : readVal newSettings "whitelistString" = some (.jStr s)) :
    readVal (prepareSettings newSettings) "jetpack_protect_whitelist"
      = some (.jArr ((s.splitOn "\n").map .jStr))
    ∧ hasKey (prepareSettings newSettings) "whitelistString" = false
    ∧ (∀ o, Site.saveSettings ga b newSettings err rd = some o →
        o.sent = prepareSettings newSettings) := by
  refine ⟨?_, ?_, fun o ho => (saveSettings_some_inv ga b newSettings err rd o ho).1⟩
  · unfold prepareSettings
    rw [h, readVal_eraseKey_ne _ _ _ (by decide), readVal_storeKey_self]
  · unfold prepareSettings
    rw [h]
    exact hasKey_eraseKey_self _ _

/-- C9 witness: a two-line whitelist string is split into the list field
and the string field is dropped from the payload actually sent. -/
theorem saveSettings_whitelist_split_witness :
    readVal (prepareSettings [("whitelistString", some (.jStr "1.2.3.4\n5.6.7.8"))])
        "jetpack_protect_whitelist"
      = some (.jArr ((("1.2.3.4\n5.6.7.8").splitOn "\n").map .jStr))
    ∧ hasKey (prepareSettings [("whitelistString", some (.jStr "1.2.3.4\n5.6.7.8"))])
        "whitelistString" = false :=
  ⟨(saveSettings_whitelist_split gaTriv [] _ "1.2.3.4\n5.6.7.8" (some .jNull) none
      (by decide)).1,
   (saveSettings_whitelist_split gaTriv [] _ "1.2.3.4\n5.6.7.8" (some .jNull) none
      (by decide)).2.1⟩

/-- Reading an attribute that some input entry sets (keys distinct):
after `set`, the attribute holds exactly the entry's value, whatever it
held before. -/
theorem set_bag_readVal_mem (ga : Bag → List (String × JValue))
    (hga : ∀ bb : Bag, updateComputedAttributes ga bb = bb)
    (b attrs : Bag) (k : String) (v : Option JValue)
    (hmem : (k, v) ∈ attrs) (hnodup : (attrs.map Prod.fst).Nodup) :
    readVal (Site.set ga b attrs).bag k = v := by
  show readVal (updateComputedAttributes ga ((attrs.foldl setStep (b, false)).1)) k = v
  rw [hga]
  exact foldl_setStep_readVal_mem attrs (b, false) k v hmem hnodup

/-- Attributes not named by any input entry are untouched by `set`. -/
theorem set_bag_preserves (ga : Bag → List (String × JValue))
    (hga : ∀ bb : Bag, updateComputedAttributes ga bb = bb)
    (b attrs : Bag) (k : String) (h : ∀ e ∈ attrs, e.1 ≠ k) :
    readVal (Site.set ga b attrs).bag k = readVal b k
    ∧ hasKey (Site.set ga b attrs).bag k = hasKey b k := by
  constructor
  · show readVal (updateComputedAttributes ga ((attrs.foldl setStep (b, false)).1)) k = _
    rw [hga]
    exact foldl_setStep_readVal_ne attrs (b, false) k h
  · show hasKey (updateComputedAttributes ga ((attrs.foldl setStep (b, false)).1)) k = _
    rw [hga]
    exact foldl_setStep_hasKey_ne attrs (b, false) k h

/-- The 403 branch of `settingsErrorHandler` raises exactly the
authorization notice, for any site state. -/
theorem settingsErrorHandler_403 (site : Bag) :
    settingsErrorHandler 403 site
      = [{ message := "You are not authorized to manage settings for this site.",
           button := none, href := none }] := by
  norm_num [settingsErrorHandler]

/-- C5: For every `fetchSettings` call that fails with HTTP status 403,
exactly one authorization-denied notification is dispatched, and no
container attribute changes beyond the initial `fetchingSettings = true`
set at the start of the call; in particular `fetchingSettings` remains
`true` after the failure. -/
theorem fetchSettings_forbidden (ga : Bag → List (String × JValue))
    (hga : ∀ bb : Bag, updateComputedAttributes ga bb = bb) (b : Bag) (t : Int) :
    (Site.fetchSettings ga b (.failure 403) t).notices
      = [{ message := "You are not authorized to manage settings for this site.",
           button := none, href := none }]
    ∧ readVal (Site.fetchSettings ga b (.failure 403) t).bag "fetchingSettings"
        = some (.jBool true)
    ∧ ∀ k, k ≠ "fetchingSettings" →
        readVal (Site.fetchSettings ga b (.failure 403) t).bag k = readVal b k
        ∧ hasKey (Site.fetchSettings ga b (.failure 403) t).bag k = hasKey b k := by
  refine ⟨?_, ?_, ?_⟩
  · show settingsErrorHandler 403
        (Site.set ga b [("fetchingSettings", some (.jBool true))]).bag = _
    exact settingsErrorHandler_403 _
  · show readVal (Site.set ga b [("fetchingSettings", some (.jBool true))]).bag
        "fetchingSettings" = _
    exact set_bag_readVal_mem ga hga b _ _ _ (by simp) (by simp)
  · intro k hk
    have h1 : ∀ e ∈ [("fetchingSettings", some (JValue.jBool true))], e.1 ≠ k := by
      intro e he
      simp only [List.mem_singleton] at he
      subst he
      exact Ne.symm hk
    constructor
    · show readVal (Site.set ga b [("fetchingSettings", some (.jBool true))]).bag k
          = readVal b k
      exact (set_bag_preserves ga hga b _ k h1).1
    · show hasKey (Site.set ga b [("fetchingSettings", some (.jBool true))]).bag k
          = hasKey b k
      exact (set_bag_preserves ga hga b _ k h1).2

/-- C5 witness: fetching on an empty container and failing with 403
raises exactly the authorization notice, leaves `fetchingSettings` at
`true`, and changes nothing else (here: the `name` attribute). -/
theorem fetchSettings_forbidden_witness :
    (Site.fetchSettings gaTriv [] (.failure 403) 0).notices
      = [{ message := "You are not authorized to manage settings for this site.",
           button := none, href := none }]
    ∧ readVal (Site.fetchSettings gaTriv [] (.failure 403) 0).bag "fetchingSettings"
        = some (.jBool true)
    ∧ readVal (Site.fetchSettings gaTriv [] (.failure 403) 0).bag "name" = readVal [] "name" :=
  ⟨(fetchSettings_forbidden gaTriv (fun _ => rfl) [] 0).1,
   (fetchSettings_forbidden gaTriv (fun _ => rfl) [] 0).2.1,
   ((fetchSettings_forbidden gaTriv (fun _ => rfl) [] 0).2.2 "name" (by decide)).1⟩

theorem map_fst_pair_some (l : List (String × JValue)) :
    (l.map (fun e => (e.1, some e.2))).map Prod.fst = l.map Prod.fst := by
  induction l with
  | nil => rfl
  | cons e rest ih => simp [ih]

/-- C8: For every `fetchSettings` call that succeeds, the container
merges the response fields as top-level attributes directly (every
response field other than the two stamped ones ends up readable at the
top level), sets `fetchingSettings` to `false`, and sets a numeric
`latestSettings` timestamp strictly greater than the time at which
`fetchSettings` was called (given that the clock advanced strictly
between call and response, which is all the code can guarantee). -/
theorem fetchSettings_success_merges (ga : Bag → List (String × JValue))
    (hga : ∀ bb : Bag, updateComputedAttributes ga bb = bb) (b : Bag)
    (data : List (String × JValue)) (callTime responseTime : Int)
    (hnodup : (data.map Prod.fst).Nodup) (ht : callTime < responseTime) :
    (∀ k v, (k, v) ∈ data → k ≠ "latestSettings" → k ≠ "fetchingSettings" →
        readVal (Site.fetchSettings ga b (.success data) responseTime).bag k = some v)
    ∧ readVal (Site.fetchSettings ga b (.success data) responseTime).bag "fetchingSettings"
        = some (.jBool false)
    ∧ ∃ ts : Int,
        readVal (Site.fetchSettings ga b (.success data) responseTime).bag "latestSettings"
          = some (.jNum ts) ∧ callTime < ts := by
  have hnd1 : ((setField (setField data "latestSettings" (.jNum responseTime))
      "fetchingSettings" (.jBool false)).map Prod.fst).Nodup :=
    nodup_map_fst_setField _ _ _ (nodup_map_fst_setField _ _ _ hnodup)
  have hndE : (((setField (setField data "latestSettings" (.jNum responseTime))
      "fetchingSettings" (.jBool false)).map
        (fun e => (e.1, some e.2))).map Prod.fst).Nodup := by
    rw [map_fst_pair_some]
    exact hnd1
  refine ⟨?_, ?_, ⟨responseTime, ?_, ht⟩⟩
  · intro k v hm hk1 hk2
    have hm2 : (k, v) ∈ setField (setField data "latestSettings" (.jNum responseTime))
        "fetchingSettings" (.jBool false) :=
      mem_setField_ne _ _ _ _ _ (mem_setField_ne _ _ _ _ _ hm hk1) hk2
    show readVal (Site.set ga (Site.set ga b [("fetchingSettings", some (.jBool true))]).bag
        ((setField (setField data "latestSettings" (.jNum responseTime))
          "fetchingSettings" (.jBool false)).map (fun e => (e.1, some e.2)))).bag k = some v
    exact set_bag_readVal_mem ga hga _ _ _ _ (List.mem_map_of_mem _ hm2) hndE
  · have hm2 : ("fetchingSettings", JValue.jBool false)
        ∈ setField (setField data "latestSettings" (.jNum responseTime))
          "fetchingSettings" (.jBool false) :=
      mem_setField_self _ _ _
    show readVal (Site.set ga (Site.set ga b [("fetchingSettings", some (.jBool true))]).bag
        ((setField (setField data "latestSettings" (.jNum responseTime))
          "fetchingSettings" (.jBool false)).map (fun e => (e.1, some e.2)))).bag
        "fetchingSettings" = some (.jBool false)
    exact set_bag_readVal_mem ga hga _ _ _ _ (List.mem_map_of_mem _ hm2) hndE
  · have hm2 : ("latestSettings", JValue.jNum responseTime)
        ∈ setField (setField data "latestSettings" (.jNum responseTime))
          "fetchingSettings" (.jBool false) :=
      mem_setField_ne _ _ _ _ _ (mem_setField_self _ _ _) (by decide)
    show readVal (Site.set ga (Site.set ga b [("fetchingSettings", some (.jBool true))]).bag
        ((setField (setField data "latestSettings" (.jNum responseTime))
          "fetchingSettings" (.jBool false)).map (fun e => (e.1, some e.2)))).bag
        "latestSettings" = some (.jNum responseTime)
    exact set_bag_readVal_mem ga hga _ _ _ _ (List.mem_map_of_mem _ hm2) hndE

/-- C8 witness: a successful fetch of `{blogname: 'Foo'}` at time 5
(call time 0) yields top-level `blogname`, `fetchingSettings = false`,
and a `latestSettings` stamp after the call time. -/
theorem fetchSettings_success_merges_witness :
    readVal (Site.fetchSettings gaTriv [] (.success [("blogname", .jStr "Foo")]) 5).bag
        "blogname" = some (.jStr "Foo")
    ∧ readVal (Site.fetchSettings gaTriv [] (.success [("blogname", .jStr "Foo")]) 5).bag
        "fetchingSettings" = some (.jBool false)
    ∧ ∃ ts : Int,
        readVal (Site.fetchSettings gaTriv [] (.success [("blogname", .jStr "Foo")]) 5).bag
          "latestSettings" = some (.jNum ts) ∧ (0 : Int) < ts :=
  ⟨(fetchSettings_success_merges gaTriv (fun _ => rfl) [] [("blogname", .jStr "Foo")] 0 5
      (by decide) (by decide)).1 "blogname" (.jStr "Foo") (by simp) (by decide) (by decide),
   (fetchSettings_success_merges gaTriv (fun _ => rfl) [] [("blogname", .jStr "Foo")] 0 5
      (by decide) (by decide)).2.1,
   (fetchSettings_success_merges gaTriv (fun _ => rfl) [] [("blogname", .jStr "Foo")] 0 5
      (by decide) (by decide)).2.2⟩

/-- A `set` call whose every entry deep-compares equal to the current
value is a complete no-op. -/
theorem set_noop_aux (ga : Bag → List (String × JValue))
    (hga : ∀ bb : Bag, updateComputedAttributes ga bb = bb)
    (b attrs : Bag) (h : ∀ e ∈ attrs, e.2 = readVal b e.1) :
    Site.set ga b attrs = { bag := b, changed := false, emits := 0 } := by
  simp [Site.set, foldl_setStep_noop attrs b false h, hga]

/-- Characterization of the `saveSettings` success path when the
response carries an `updated` object and the container's `settings`
attribute holds an object: the settings object is mutated in place
(visible in the bag through the alias before `set` runs), and `set`
receives the mutated object plus the promoted `name`/`description`
entries. -/
theorem saveSettings_success_obj (ga : Bag → List (String × JValue))
    (b newSettings : Bag) (rd : JValue) (u s0 : List (String × JValue))
    (hu : objGet rd "updated" = some (.jObj u))
    (hs : readVal b "settings" = some (.jObj s0)) :
    Site.saveSettings ga b newSettings none (some rd)
      = some { bag := (Site.set ga (storeKey b "settings" (.jObj (mutatedSettings u s0)))
                  (("settings", some (.jObj (mutatedSettings u s0))) ::
                    reflectExtra (prepareSettings newSettings) u)).bag
               emits := (Site.set ga (storeKey b "settings" (.jObj (mutatedSettings u s0)))
                  (("settings", some (.jObj (mutatedSettings u s0))) ::
                    reflectExtra (prepareSettings newSettings) u)).emits
               sent := prepareSettings newSettings
               callbackCalls := [(none, some rd)] } := by
  unfold Site.saveSettings
  dsimp only
  rw [hu, hs]
  simp [jsTruthy, forInProps]

/-- C4: For a container holding a settings object, calling
`saveSettings({blogdescription: 'New desc'}, cb)` where the server
responds `{updated: {blogdescription: 'New desc'}}` results in the
container's top-level `description` attribute becoming `'New desc'`
and its `settings.blogdescription` becoming `'New desc'`, and the
callback is invoked exactly once with `(null, response)`; in general,
whenever a `saveSettings` call completes, the callback is invoked
exactly once, with the raw `(error, data)` pair. -/
theorem saveSettings_blogdescription_example (ga : Bag → List (String × JValue))
    (hga : ∀ bb : Bag, updateComputedAttributes ga bb = bb)
    (b : Bag) (s0 : List (String × JValue))
    (hset : readVal b "settings" = some (.jObj s0)) :
    (∃ o, Site.saveSettings ga b [("blogdescription", some (.jStr "New desc"))] none
        (some (.jObj [("updated", .jObj [("blogdescription", .jStr "New desc")])])) = some o
      ∧ readVal o.bag "description" = some (.jStr "New desc")
      ∧ readVal o.bag "settings"
          = some (.jObj (setField s0 "blogdescription" (.jStr "New desc")))
      ∧ fieldGet (setField s0 "blogdescription" (.jStr "New desc")) "blogdescription"
          = some (.jStr "New desc")
      ∧ o.callbackCalls
          = [(none, some (.jObj [("updated", .jObj [("blogdescription", .jStr "New desc")])]))])
    ∧ (∀ (other : Bag) (err rd : Option JValue) (o : SaveOutcome),
        Site.saveSettings ga b other err rd = some o → o.callbackCalls = [(err, rd)]) := by
  constructor
  · have hchar := saveSettings_success_obj ga b [("blogdescription", some (.jStr "New desc"))]
      (.jObj [("updated", .jObj [("blogdescription", .jStr "New desc")])])
      [("blogdescription", .jStr "New desc")] s0 rfl hset
    refine ⟨_, hchar, ?_, ?_,
      fieldGet_setField_self s0 "blogdescription" (.jStr "New desc"), rfl⟩
    · exact set_bag_readVal_mem ga hga _ _ _ _
        (List.mem_cons_of_mem _ (List.mem_singleton.mpr rfl))
        (show (["settings", "description"] : List String).Nodup by decide)
    · exact set_bag_readVal_mem ga hga _ _ _ _ (List.mem_cons_self _ _)
        (show (["settings", "description"] : List String).Nodup by decide)
  · exact fun other err rd o ho => (saveSettings_some_inv ga b other err rd o ho).2

/-- C4 witness: the concrete scenario on a container whose settings
object is empty. -/
theorem saveSettings_blogdescription_example_witness :
    ∃ o, Site.saveSettings gaTriv [("settings", some (.jObj []))]
        [("blogdescription", some (.jStr "New desc"))] none
        (some (.jObj [("updated", .jObj [("blogdescription", .jStr "New desc")])])) = some o
      ∧ readVal o.bag "description" = some (.jStr "New desc")
      ∧ readVal o.bag "settings"
          = some (.jObj (setField [] "blogdescription" (.jStr "New desc")))
      ∧ fieldGet (setField [] "blogdescription" (.jStr "New desc")) "blogdescription"
          = some (.jStr "New desc")
      ∧ o.callbackCalls
          = [(none, some (.jObj [("updated", .jObj [("blogdescription", .jStr "New desc")])]))] :=
  (saveSettings_blogdescription_example gaTriv (fun _ => rfl)
    [("settings", some (.jObj []))] [] rfl).1

/-- C10: For every successful `saveSettings` whose response's `updated`
record is non-empty but causes no change to the top-level `name` or
`description` attributes, no change event is emitted and no change is
detected for the `settings` attribute: the updated keys are written
into the existing settings sub-record in place (through the
`settings`/`this.settings` alias) before the deep-equality comparison
in `set`, so the comparison sees the mutated object as equal to itself —
the call emits zero change events even though the container's
`settings` ends up holding the updated fields. -/
theorem saveSettings_inplace_no_change_event (ga : Bag → List (String × JValue))
    (hga : ∀ bb : Bag, updateComputedAttributes ga bb = bb)
    (b newSettings : Bag) (rd : JValue) (u s0 : List (String × JValue))
    (hu : objGet rd "updated" = some (.jObj u)) (hune : u ≠ [])
    (hs : readVal b "settings" = some (.jObj s0))
    (hname : "blogname" ∈ u.map Prod.fst →
        readVal (prepareSettings newSettings) "blogname" = readVal b "name")
    (hdesc : "blogdescription" ∈ u.map Prod.fst →
        readVal (prepareSettings newSettings) "blogdescription" = readVal b "description") :
    ∃ o, Site.saveSettings ga b newSettings none (some rd) = some o
      ∧ o.emits = 0
      ∧ readVal o.bag "settings" = some (.jObj (mutatedSettings u s0)) := by
  have hchar := saveSettings_success_obj ga b newSettings rd u s0 hu hs
  have hnoop : ∀ e ∈ (("settings", some (JValue.jObj (mutatedSettings u s0))) ::
      reflectExtra (prepareSettings newSettings) u),
      e.2 = readVal (storeKey b "settings" (.jObj (mutatedSettings u s0))) e.1 := by
    intro e he
    rcases List.mem_cons.mp he with heq | hex
    · subst heq
      exact (readVal_storeKey_self b "settings" (.jObj (mutatedSettings u s0))).symm
    · unfold reflectExtra at hex
      rcases List.mem_filterMap.mp hex with ⟨a, ha, hfa⟩
      by_cases h1 : a.1 = "blogname"
      · rw [if_pos h1] at hfa
        injection hfa with hfa
        subst hfa
        dsimp only
        rw [readVal_storeKey_ne b "settings" (.jObj (mutatedSettings u s0)) "name" (by decide)]
        have hm : a.1 ∈ u.map Prod.fst := List.mem_map_of_mem Prod.fst ha
        rw [h1] at hm
        exact hname hm
      · by_cases h2 : a.1 = "blogdescription"
        · rw [if_neg h1, if_pos h2] at hfa
          injection hfa with hfa
          subst hfa
          dsimp only
          rw [readVal_storeKey_ne b "settings" (.jObj (mutatedSettings u s0)) "description"
            (by decide)]
          have hm : a.1 ∈ u.map Prod.fst := List.mem_map_of_mem Prod.fst ha
          rw [h2] at hm
          exact hdesc hm
        · rw [if_neg h1, if_neg h2] at hfa
          exact Option.noConfusion hfa
  have hset2 := set_noop_aux ga hga
    (storeKey b "settings" (.jObj (mutatedSettings u s0)))
    (("settings", some (JValue.jObj (mutatedSettings u s0))) ::
      reflectExtra (prepareSettings newSettings) u) hnoop
  rw [hset2] at hchar
  exact ⟨_, hchar, rfl, readVal_storeKey_self b "settings" (.jObj (mutatedSettings u s0))⟩

/-- C10 witness: saving `{}` against a container whose settings object
is `{foo: 'old'}` while the server reports `{updated: {foo: 'x'}}`:
the call completes with zero change events, yet the container's
settings object now holds `foo: 'x'`. -/
theorem saveSettings_inplace_no_change_event_witness :
    ∃ o, Site.saveSettings gaTriv
        [("settings", some (.jObj [("foo", .jStr "old")])), ("name", some (.jStr "N"))]
        [] none (some (.jObj [("updated", .jObj [("foo", .jStr "x")])])) = some o
      ∧ o.emits = 0
      ∧ readVal o.bag "settings"
          = some (.jObj (mutatedSettings [("foo", .jStr "x")] [("foo", .jStr "old")])) :=
  saveSettings_inplace_no_change_event gaTriv (fun _ => rfl)
    [("settings", some (.jObj [("foo", .jStr "old")])), ("name", some (.jStr "N"))]
    [] (.jObj [("updated", .jObj [("foo", .jStr "x")])])
    [("foo", .jStr "x")] [("foo", .jStr "old")]
    rfl (by decide) rfl (by decide) (by decide)
